import Mathlib

/-!
Verification of the eBay → spreadsheet synchronizer.

The development shallowly embeds the two source modules:
  * `parser/parser.py` — the `Parser` class extracting typed fields from a
    product page (modelled over an abstract DOM of elements and spans);
  * `main.py` — the retry loop `parse_item`, the batch loop in `main`,
    the sheet helpers `get_links` / `update_sheet` / `column_to_letter`.

Texts are modelled as `List Char`; the Python string operations used by the
source (`in`, `.replace`, `.strip`) are implemented below.
-/

set_option autoImplicit false

namespace EbayParser

/-- Convert a Lean string literal to the character-list text model. -/
def txt (s : String) : List Char := s.data

/-- Test that `h` starts with `n` (Python slice comparison). -/
def isPrefixOfCL : List Char → List Char → Bool
  | [], _ => true
  | _ :: _, [] => false
  | a :: as, b :: bs => a = b && isPrefixOfCL as bs

/-- Python's substring test `needle in hay`. -/
def containsSub (needle : List Char) : List Char → Bool
  | [] => isPrefixOfCL needle []
  | c :: rest => isPrefixOfCL needle (c :: rest) || containsSub needle rest

/-- Scanner for `replaceAll`: `skip` counts characters still to be skipped
after a match was consumed (structural recursion on the text). -/
def replaceGo (needle repl : List Char) : List Char → Nat → List Char
  | [], _ => []
  | _ :: rest, skip + 1 => replaceGo needle repl rest skip
  | c :: rest, 0 =>
    if isPrefixOfCL needle (c :: rest) then
      repl ++ replaceGo needle repl rest (needle.length - 1)
    else
      c :: replaceGo needle repl rest 0

/-- Python `hay.replace(needle, repl)` for a non-empty needle: every
left-to-right non-overlapping occurrence is replaced.  The source only calls
this with the non-empty needles `"US $"`, `"/ea"` and `" | eBay"`. -/
def replaceAll (needle repl hay : List Char) : List Char :=
  match needle with
  | [] => hay
  | _ :: _ => replaceGo needle repl hay 0

/-- Whitespace in the sense of Python `str.strip()` (the subset that can
occur in the modelled texts). -/
def isSpaceCh (c : Char) : Bool :=
  c = ' ' || c = '\t' || c = '\n' || c = '\r'

def trimLeft : List Char → List Char
  | [] => []
  | c :: rest => if isSpaceCh c then trimLeft rest else c :: rest

/-- Python `str.strip()`. -/
def trim (l : List Char) : List Char :=
  ((trimLeft ((trimLeft l).reverse)).reverse)

/-! ## The DOM model

`BeautifulSoup` is an external library; the embedding keeps exactly the data
the source inspects: for each element its tag, its `class` attribute (as the
token list), its rendered text (`get_text(strip=True)`), and its descendant
`span`s in document order.  Texts stored in the model are the already
stripped rendered texts. -/

structure Span where
  classAttr : List String
  text : List Char
  deriving DecidableEq, Repr

structure Element where
  tag : String
  classAttr : List String
  text : List Char
  spans : List Span
  deriving DecidableEq, Repr

structure Page where
  title : Option (List Char)
  elements : List Element
  deriving DecidableEq, Repr

/-- The `class_filter` closure of `Parser._get_element`: the class attribute
is present (non-empty) and contains every requested class name. -/
def classFilter (classNames : List String) (el : Element) : Bool :=
  !el.classAttr.isEmpty && classNames.all (fun c => el.classAttr.contains c)

/-- Model of `soup.find_all(tag, class_=class_filter)`. -/
def findAllByClass (p : Page) (tag : String) (classNames : List String) :
    List Element :=
  p.elements.filter (fun el => el.tag = tag && classFilter classNames el)

/-- Model of `Parser._get_element`.  `contains_any = None` or `[]` (both falsy in
Python) selects the first match; otherwise the first match whose rendered
text contains one of the given substrings, else `None`. -/
def getElement (p : Page) (tag : String) (classNames : List String)
    (containsAny : Option (List (List Char))) : Option Element :=
  match findAllByClass p tag classNames with
  | [] => none
  | e :: es =>
    match containsAny with
    | none => some e
    | some [] => some e
    | some subs =>
      (e :: es).find? (fun el => subs.any (fun sub => containsSub sub el.text))

/-- Model of `block.find_all("span", class_="ux-textspans ux-textspans--BOLD")`:
BeautifulSoup matches a class string containing a space against the exact
multi-valued attribute, i.e. the token list `["ux-textspans",
"ux-textspans--BOLD"]`. -/
def boldSpans (block : Element) : List Span :=
  block.spans.filter
    (fun s => s.classAttr = ["ux-textspans", "ux-textspans--BOLD"])

/-- Model of `block.find("span", class_="ux-textspans")`: a single class token matches
by containment in the multi-valued attribute. -/
def firstPlainSpan (block : Element) : Option Span :=
  block.spans.find? (fun s => s.classAttr.contains "ux-textspans")

/-- Result type of `Parser.get_shipping` (Python `str | int`). -/
inductive ShipResult where
  | int (n : Nat)
  | str (t : List Char)
  deriving DecidableEq, Repr

/-- Model of `Parser.get_price`. -/
def get_price (p : Page) : Option (List Char) :=
  match getElement p "div" ["x-price-primary"] none with
  | none => none
  | some block =>
    let t := trim (replaceAll (txt "/ea") [] (replaceAll (txt "US $") [] block.text))
    if t = [] then none else some t

/-- The classification chain of `Parser.get_shipping`, applied to the first
bold span's text. -/
def classifyShipping (text : List Char) : ShipResult :=
  if containsSub (txt "Free") text then .int 0
  else if containsSub (txt "May not ship to") text then
    .str (txt "Cannot be delivered to your country")
  else if containsSub (txt "US $") text then
    .str (trim (replaceAll (txt "US $") [] text))
  else .str text

/-- Model of `Parser.get_shipping`. -/
def get_shipping (p : Page) : Option ShipResult :=
  match getElement p "div"
      ["ux-labels-values", "col-12", "false", "ux-labels-values--shipping"]
      none with
  | none => none
  | some block =>
    match boldSpans block with
    | [] => none
    | s :: _ => some (classifyShipping s.text)

/-- The weekday abbreviations filtering the delivery values block. -/
def weekdayAbbrevs : List (List Char) :=
  [txt "Mon", txt "Tue", txt "Wed", txt "Thu", txt "Fri", txt "Sat", txt "Sun"]

/-- The block slot `Parser.get_delivery_time` locates. -/
def deliveryBlock (p : Page) : Option Element :=
  getElement p "div" ["ux-labels-values__values-content"] (some weekdayAbbrevs)

/-- Model of `Parser.get_delivery_time`. -/
def get_delivery_time (p : Page) : Option (List Char) :=
  match deliveryBlock p with
  | none => none
  | some block =>
    match boldSpans block with
    | s1 :: s2 :: _ => some (s1.text ++ txt " to " ++ s2.text)
    | _ =>
      match firstPlainSpan block with
      | some s => some s.text
      | none => none

/-- Model of `Parser.get_title`; `unescape` stands for the external `html.unescape`. -/
def get_title (unescape : List Char → List Char) (p : Page) :
    Option (List Char) :=
  match p.title with
  | none => none
  | some t => some (replaceAll (txt " | eBay") [] (unescape t))

/-- The block slot `Parser.get_param` locates for a label `name`. -/
def paramBlock (p : Page) (name : List Char) : Option Element :=
  getElement p "dl"
    ["ux-labels-values", "ux-labels-values--inline", "col-6", "false"]
    (some [name])

/-- Model of `Parser.get_param`. -/
def get_param (p : Page) (name : List Char) : Option (List Char) :=
  match paramBlock p name with
  | none => none
  | some block =>
    match block.spans with
    | _ :: s2 :: _ => some s2.text
    | _ => none

/-! ## `main.py` — the record, the retry loop, the batch loop -/

/-- The `Item` dataclass: the listing link plus eight optional fields.
The field value type `α` is kept abstract (the claims about the resolver do
not depend on the field payloads). -/
structure Item (α : Type) where
  link : String
  price : Option α := none
  shipping : Option α := none
  delivery : Option α := none
  title : Option α := none
  condition : Option α := none
  mpn : Option α := none
  brand : Option α := none
  model : Option α := none
  deriving DecidableEq, Repr

/-- The freshly created record `Item(link=link)`. -/
def emptyItem {α : Type} (link : String) : Item α := { link := link }

/-- The interface of the `Parser` object as used by `parse_item`: the five
getters, each of which may raise (modelled by `Except String`).  `μ` is the
page markup type. -/
structure Extractor (μ α : Type) where
  priceOf : μ → Except String (Option α)
  shippingOf : μ → Except String (Option α)
  deliveryOf : μ → Except String (Option α)
  titleOf : μ → Except String (Option α)
  paramOf : String → μ → Except String (Option α)

/-- The body of one attempt's `try` block: the eight assignments
`item.price = ...` through `item.model = ...` are executed in order; the
first raised exception aborts the attempt, leaving the fields assigned so
far in the record (Python in-place mutation).  Returns the record after the
attempt and whether the attempt succeeded. -/
def attemptParse {μ α : Type} (ex : Extractor μ α) (page : μ)
    (item : Item α) : Item α × Bool :=
  match ex.priceOf page with
  | .error _ => (item, false)
  | .ok v1 =>
    let item := { item with price := v1 }
    match ex.shippingOf page with
    | .error _ => (item, false)
    | .ok v2 =>
      let item := { item with shipping := v2 }
      match ex.deliveryOf page with
      | .error _ => (item, false)
      | .ok v3 =>
        let item := { item with delivery := v3 }
        match ex.titleOf page with
        | .error _ => (item, false)
        | .ok v4 =>
          let item := { item with title := v4 }
          match ex.paramOf "Condition" page with
          | .error _ => (item, false)
          | .ok v5 =>
            let item := { item with condition := v5 }
            match ex.paramOf "MPN" page with
            | .error _ => (item, false)
            | .ok v6 =>
              let item := { item with mpn := v6 }
              match ex.paramOf "Brand" page with
              | .error _ => (item, false)
              | .ok v7 =>
                let item := { item with brand := v7 }
                match ex.paramOf "Model" page with
                | .error _ => (item, false)
                | .ok v8 => ({ item with model := v8 }, true)

/-- The retry loop of `parse_item`.  `fetch a` models
`get_page(link, second_req=(a > 1))` at attempt number `a` (the hidden
browser-session state makes successive fetches differ, hence the attempt
index).  Returns the final record together with the number of fetch calls
performed. -/
def parseFrom {μ α : Type} (fetch : Nat → Option μ) (ex : Extractor μ α)
    (attempt : Nat) : Nat → Item α → Item α × Nat
  | 0, item => (item, 0)
  | attemptsLeft + 1, item =>
    match fetch attempt with
    | none =>
      let r := parseFrom fetch ex (attempt + 1) attemptsLeft item
      (r.1, r.2 + 1)
    | some page =>
      let a := attemptParse ex page item
      if a.2 then (a.1, 1)
      else
        let r := parseFrom fetch ex (attempt + 1) attemptsLeft a.1
        (r.1, r.2 + 1)

/-- Model of `parse_item(link)`: three attempts starting from the empty record. -/
def parse_item {μ α : Type} (fetch : Nat → Option μ) (ex : Extractor μ α)
    (link : String) : Item α × Nat :=
  parseFrom fetch ex 1 3 (emptyItem link)

/-! ### The aggregate map (`items: Dict[str, Item]`) -/

/-- Python `dict` insertion: an existing key keeps its position and gets the
new value, a new key is appended. -/
def dictInsert {β : Type} : List (String × β) → String → β → List (String × β)
  | [], k, v => [(k, v)]
  | (k0, v0) :: rest, k, v =>
    if k0 = k then (k0, v) :: rest else (k0, v0) :: dictInsert rest k v

/-- Python `dict` lookup (`items.get(link)`). -/
def dictGet {β : Type} (m : List (String × β)) (k : String) : Option β :=
  (m.find? (fun e => e.1 = k)).map (fun e => e.2)

/-- The keys of the aggregate map, in insertion order. -/
def dictKeys {β : Type} (m : List (String × β)) : List String :=
  m.map (fun e => e.1)

/-- The `for idx, link in enumerate(links)` loop of `main`: resolve each
link in order and store the record under its link.  `fetch i l a` is the
fetch oracle for the `i`-th input position (0-based), link `l`, attempt `a`;
the position index models the evolving shared browser session.  Also
accumulates the total number of fetch calls. -/
def processFrom {μ α : Type} (fetch : Nat → String → Nat → Option μ)
    (ex : Extractor μ α) :
    Nat → List String → List (String × Item α) → Nat →
    List (String × Item α) × Nat
  | _, [], m, n => (m, n)
  | i, l :: ls, m, n =>
    let r := parse_item (fetch i l) ex l
    processFrom fetch ex (i + 1) ls (dictInsert m l r.1) (n + r.2)

/-- The aggregate map and total fetch count produced by `main`'s loop. -/
def processLinks {μ α : Type} (fetch : Nat → String → Nat → Option μ)
    (ex : Extractor μ α) (links : List String) :
    List (String × Item α) × Nat :=
  processFrom fetch ex 0 links [] 0

/-! ### Sheet helpers (`get_links`, `column_to_letter`, `update_sheet`) -/

/-- Python `str.strip()` on a sheet cell. -/
def stripCell (s : String) : String := String.mk (trim s.data)

/-- Python `list.index` returning `None` instead of raising `ValueError`
(the source wraps `.index` in `try`/`except` at both call sites). -/
def listIndex : List String → String → Option Nat
  | [], _ => none
  | h :: hs, name =>
    if h = name then some 0 else (listIndex hs name).map (fun i => i + 1)

/-- The link-column extraction of `get_links` once the column index `i` is
known. -/
def linksFromRows (i : Nat) (rows : List (List String)) : List String :=
  rows.filterMap (fun row =>
    let link := stripCell (row.getD i "")
    if link = "" then none else some link)

/-- Model of `get_links(sheet)`: the header row must contain `"link"`; the non-empty
stripped cells of that column in the data rows are the links.  A missing
row cell reads as the empty string. -/
def get_links (values : List (List String)) : Except String (List String) :=
  match values with
  | [] => .ok []
  | header :: rows =>
    match listIndex header "link" with
    | none => .error "Column \x27link\x27 not found in the first row of the sheet"
    | some i => .ok (linksFromRows i rows)

/-- The loop body of `column_to_letter`, driven by fuel; the real loop
terminates because `(col - 1) / 26 < col`, so `fuel = col` suffices (see
`col2letterFuel_stable`). -/
def col2letterFuel : Nat → Nat → List Char
  | 0, _ => []
  | fuel + 1, col =>
    if col = 0 then []
    else col2letterFuel fuel ((col - 1) / 26) ++ [Char.ofNat (65 + (col - 1) % 26)]

/-- Model of `column_to_letter(col)`: 1-based column index to A1 letters. -/
def column_to_letter (col : Nat) : List Char :=
  col2letterFuel col col

/-- The nine required column names, in the order `update_sheet` resolves
them. -/
def requiredCols : List String :=
  ["link", "price", "shipping price", "delivery time", "title",
   "condition", "mpn", "brand", "model"]

/-- Model of `headers.index(name) + 1`, raising `RuntimeError` when absent. -/
def colLookup (headers : List String) (name : String) : Except String Nat :=
  match listIndex headers name with
  | none => .error ("Column \x27" ++ name ++ "\x27 not found in the sheet")
  | some i => .ok (i + 1)

/-- Resolve a list of column names in order; the first missing one raises. -/
def resolveCols (headers : List String) : List String → Except String (List Nat)
  | [] => .ok []
  | n :: ns => do
    let i ← colLookup headers n
    let rest ← resolveCols headers ns
    .ok (i :: rest)

/-- One batched cell update: A1 range and payload (`None` renders as the
empty cell, kept as `Option α` here). -/
structure Update (α : Type) where
  range : List Char
  value : Option α
  deriving DecidableEq, Repr

/-- The eight updates `update_sheet` emits for one matched row. -/
def rowUpdates {α : Type} (cols : List Nat) (rowIdx : Nat) (item : Item α) :
    List (Update α) :=
  (List.zip (cols.drop 1)
      [item.price, item.shipping, item.delivery, item.title,
       item.condition, item.mpn, item.brand, item.model]).map
    (fun cv => { range := column_to_letter cv.1 ++ (txt (toString rowIdx)),
                 value := cv.2 })

/-- The row loop of `update_sheet` (`enumerate(values[1:], start=2)`). -/
def buildUpdates {α : Type} (cols : List Nat) (items : List (String × Item α)) :
    Nat → List (List String) → List (Update α)
  | _, [] => []
  | rowIdx, row :: rows =>
    let linkIdx := (cols.headD 1) - 1
    let link := stripCell (row.getD linkIdx "")
    match dictGet items link with
    | none => buildUpdates cols items (rowIdx + 1) rows
    | some item =>
      rowUpdates cols rowIdx item ++ buildUpdates cols items (rowIdx + 1) rows

/-- Model of `update_sheet(sheet, items)`: resolves the nine required columns from
the header row (first missing one raises `RuntimeError`), then builds the
batched updates. -/
def update_sheet {α : Type} (values : List (List String))
    (items : List (String × Item α)) : Except String (List (Update α)) :=
  match values with
  | [] => .ok []
  | header :: rows => do
    let cols ← resolveCols header requiredCols
    .ok (buildUpdates cols items 2 rows)

/-- Model of `main()`: read links (raises when `"link"` is missing from the header),
resolve every link accumulating fetch calls, then `update_sheet` (raises on
the first missing required column).  Returns the outcome and the total
number of page fetches performed before the run ended. -/
def runMain {μ α : Type} (fetch : Nat → String → Nat → Option μ)
    (ex : Extractor μ α) (values : List (List String)) :
    Except String (List (Update α)) × Nat :=
  match get_links values with
  | .error e => (.error e, 0)
  | .ok links =>
    let pr := processLinks fetch ex links
    match update_sheet values pr.1 with
    | .error e => (.error e, pr.2)
    | .ok u => (.ok u, pr.2)

/-! ## Auxiliary definitions used by the verification -/

/-- Decode A1 column letters back to the 1-based column index (specification
inverse of `column_to_letter`). -/
def letter2col (l : List Char) : Nat :=
  l.foldl (fun acc c => acc * 26 + (c.toNat - 64)) 0

/-- Whether an `Except` computation succeeded. -/
def exceptIsOk {ε β : Type} : Except ε β → Bool
  | .ok _ => true
  | .error _ => false

/-- Test that `h` ends with `n` (used to express "trailing suffix" in the title
claim). -/
def isSuffixOfCL (n h : List Char) : Bool :=
  isPrefixOfCL n.reverse h.reverse

/-- The non-identity fields of a record, in source order (used to express
the spec's count of the fields other than `link`). -/
def nonIdentityFields {α : Type} (it : Item α) : List (Option α) :=
  [it.price, it.shipping, it.delivery, it.title,
   it.condition, it.mpn, it.brand, it.model]

/-! ## Concrete fixtures for witnesses and counterexamples -/

/-- An extractor whose first getter succeeds and whose second raises. -/
def exFail : Extractor Unit Nat :=
  { priceOf := fun _ => .ok (some 1)
    shippingOf := fun _ => .error "boom"
    deliveryOf := fun _ => .ok none
    titleOf := fun _ => .ok none
    paramOf := fun _ _ => .ok none }

/-- An extractor on which every getter succeeds with `None`. -/
def exTriv : Extractor Unit Nat :=
  { priceOf := fun _ => .ok none
    shippingOf := fun _ => .ok none
    deliveryOf := fun _ => .ok none
    titleOf := fun _ => .ok none
    paramOf := fun _ _ => .ok none }

/-- A sheet whose header row lacks the required column `"mpn"` and which has
one data row with a link. -/
def sheetMissingMpn : List (List String) :=
  [["link", "price", "shipping price", "delivery time", "title",
    "condition", "brand", "model"],
   ["https://ebay.example/itm/1", "", "", "", "", "", "", ""]]

/-- The delivery-values block of the worked spec example. -/
def deliveryBlockEx : Element :=
  { tag := "div"
    classAttr := ["ux-labels-values__values-content"]
    text := txt "Mon, Jun 2 and Fri, Jun 6"
    spans := [{ classAttr := ["ux-textspans", "ux-textspans--BOLD"],
                text := txt "Mon, Jun 2" },
              { classAttr := ["ux-textspans", "ux-textspans--BOLD"],
                text := txt "Fri, Jun 6" }] }

/-- A page carrying the worked delivery-window example. -/
def deliveryPage : Page :=
  { title := none, elements := [deliveryBlockEx] }

/-- A shipping block whose first bold span mentions both a free marker and a
currency-prefixed amount. -/
def shippingBlockEx : Element :=
  { tag := "div"
    classAttr := ["ux-labels-values", "col-12", "false",
                  "ux-labels-values--shipping"]
    text := txt "Free shipping; was US $5.00"
    spans := [{ classAttr := ["ux-textspans", "ux-textspans--BOLD"],
                text := txt "Free shipping; was US $5.00" }] }

/-- A page carrying the shipping precedence example. -/
def shippingPage : Page :=
  { title := none, elements := [shippingBlockEx] }

/-- A definition-list block for the attribute example (`MPN`). -/
def paramBlockEx : Element :=
  { tag := "dl"
    classAttr := ["ux-labels-values", "ux-labels-values--inline", "col-6",
                  "false"]
    text := txt "MPN:12345X"
    spans := [{ classAttr := ["ux-textspans"], text := txt "MPN:" },
              { classAttr := ["ux-textspans"], text := txt "12345X" }] }

/-- A page carrying the attribute example. -/
def paramPage : Page :=
  { title := none, elements := [paramBlockEx] }

/-- A page whose title contains the site suffix only in the middle, not at
the end. -/
def midSuffixPage : Page :=
  { title := some (txt "Great | eBay Deal"), elements := [] }

/-- A page whose title ends with the site suffix. -/
def titledPage : Page :=
  { title := some (txt "Cordless Drill 18V | eBay"), elements := [] }

/-! # Theorems -/

/-! ## C10 — `column_to_letter` is the bijective base-26 column label -/

theorem toNat_ofNat_col (r : Nat) (h : r < 26) :
    (Char.ofNat (65 + r)).toNat = 65 + r := by
  interval_cases r <;> decide

theorem letter2col_append (xs : List Char) (c : Char) :
    letter2col (xs ++ [c]) = letter2col xs * 26 + (c.toNat - 64) := by
  simp [letter2col, List.foldl_append]

theorem letter2col_col2letterFuel (fuel : Nat) :
    ∀ col, col ≤ fuel → letter2col (col2letterFuel fuel col) = col := by
  induction fuel with
  | zero =>
    intro col h
    have h0 : col = 0 := Nat.le_zero.mp h
    subst h0
    rfl
  | succ fuel ih =>
    intro col h
    by_cases hc : col = 0
    · subst hc
      simp [col2letterFuel, letter2col]
    · have h1 : (col - 1) / 26 ≤ fuel := by
        have := Nat.div_le_self (col - 1) 26
        omega
      rw [col2letterFuel, if_neg hc, letter2col_append, ih _ h1,
        toNat_ofNat_col _ (Nat.mod_lt _ (by omega))]
      have h2 := Nat.div_add_mod (col - 1) 26
      omega

theorem letter2col_column_to_letter (col : Nat) :
    letter2col (column_to_letter col) = col :=
  letter2col_col2letterFuel col col (Nat.le_refl col)

theorem col2letterFuel_chars (fuel : Nat) :
    ∀ col c, c ∈ col2letterFuel fuel col → 65 ≤ c.toNat ∧ c.toNat ≤ 90 := by
  induction fuel with
  | zero =>
    intro col c hc
    simp [col2letterFuel] at hc
  | succ fuel ih =>
    intro col c hc
    by_cases h0 : col = 0
    · subst h0
      simp [col2letterFuel] at hc
    · rw [col2letterFuel, if_neg h0] at hc
      rcases List.mem_append.mp hc with hmem | hmem
      · exact ih _ _ hmem
      · have hc' : c = Char.ofNat (65 + (col - 1) % 26) :=
          List.mem_singleton.mp hmem
        subst hc'
        rw [toNat_ofNat_col _ (Nat.mod_lt _ (by omega))]
        have : (col - 1) % 26 < 26 := Nat.mod_lt _ (by omega)
        omega

/-- C10: `column_to_letter` computes the bijective base-26 alphabetic column
label (1 → "A", 26 → "Z", 27 → "AA", 52 → "AZ", 53 → "BA", …), is injective,
and for every positive input returns a non-empty string of characters A–Z
(terminating by construction). -/
theorem c10_column_to_letter_bijective :
    (∀ n m : Nat, column_to_letter n = column_to_letter m → n = m) ∧
    (∀ n : Nat, 0 < n → column_to_letter n ≠ [] ∧
      ∀ c ∈ column_to_letter n, 65 ≤ c.toNat ∧ c.toNat ≤ 90) ∧
    column_to_letter 1 = txt "A" ∧
    column_to_letter 26 = txt "Z" ∧
    column_to_letter 27 = txt "AA" ∧
    column_to_letter 52 = txt "AZ" ∧
    column_to_letter 53 = txt "BA" ∧
    column_to_letter 702 = txt "ZZ" ∧
    column_to_letter 703 = txt "AAA" := by
  refine ⟨?_, ?_, by decide, by decide, by decide, by decide, by decide,
    by decide, by decide⟩
  · intro n m h
    have hn := letter2col_column_to_letter n
    have hm := letter2col_column_to_letter m
    rw [h, hm] at hn
    exact hn.symm
  · intro n hn
    constructor
    · match n, hn with
      | n + 1, _ =>
        rw [column_to_letter, col2letterFuel, if_neg (Nat.succ_ne_zero n)]
        simp
    · intro c hc
      exact col2letterFuel_chars n n c hc

/-- Witness for C10 at a concrete input. -/
theorem c10_column_to_letter_bijective_witness :
    column_to_letter 53 ≠ [] :=
  (c10_column_to_letter_bijective.2.1 53 (by decide)).1

/-! ## C5 — shipping classification, first match wins -/

/-- C5: `get_shipping` classifies the first bold span's text of the shipping
block with first-match-wins precedence: a "Free" marker yields the integer 0
(even when a currency-prefixed number is also present); otherwise a
"May not ship to" marker yields the fixed string "Cannot be delivered to
your country" regardless of other tokens; otherwise a "US $" prefix yields
the remainder with every "US $" removed and whitespace stripped; otherwise
the raw text is returned verbatim. -/
theorem c5_shipping_first_match_wins :
    (∀ (p : Page) (block : Element) (s : Span) (rest : List Span),
      getElement p "div"
          ["ux-labels-values", "col-12", "false",
           "ux-labels-values--shipping"] none = some block →
      boldSpans block = s :: rest →
      get_shipping p = some (classifyShipping s.text)) ∧
    (∀ t, containsSub (txt "Free") t = true →
      classifyShipping t = .int 0) ∧
    (∀ t, containsSub (txt "Free") t = false →
      containsSub (txt "May not ship to") t = true →
      classifyShipping t = .str (txt "Cannot be delivered to your country")) ∧
    (∀ t, containsSub (txt "Free") t = false →
      containsSub (txt "May not ship to") t = false →
      containsSub (txt "US $") t = true →
      classifyShipping t = .str (trim (replaceAll (txt "US $") [] t))) ∧
    (∀ t, containsSub (txt "Free") t = false →
      containsSub (txt "May not ship to") t = false →
      containsSub (txt "US $") t = false →
      classifyShipping t = .str t) := by
  refine ⟨?_, ?_, ?_, ?_, ?_⟩
  · intro p block s rest h1 h2
    simp [get_shipping, h1, h2]
  · intro t h1
    simp [classifyShipping, h1]
  · intro t h1 h2
    simp [classifyShipping, h1, h2]
  · intro t h1 h2 h3
    simp [classifyShipping, h1, h2, h3]
  · intro t h1 h2 h3
    simp [classifyShipping, h1, h2, h3]

/-- Witness for C5: on a page whose shipping block's first bold span reads
"Free shipping; was US $5.00" (a free marker AND a currency-prefixed
number), the classification yields 0; and "May not ship to: Brazil" yields
the fixed descriptive string. -/
theorem c5_shipping_first_match_wins_witness :
    get_shipping shippingPage = some (.int 0) ∧
    classifyShipping (txt "May not ship to: Brazil") =
      .str (txt "Cannot be delivered to your country") := by
  constructor
  · have h := c5_shipping_first_match_wins.1 shippingPage shippingBlockEx
      { classAttr := ["ux-textspans", "ux-textspans--BOLD"],
        text := txt "Free shipping; was US $5.00" } [] (by decide) (by decide)
    rw [h]
    have h0 := c5_shipping_first_match_wins.2.1
      (txt "Free shipping; was US $5.00") (by decide)
    rw [h0]
  · exact c5_shipping_first_match_wins.2.2.1 _ (by decide) (by decide)

/-! ## Resolver lemmas (`attemptParse`, `parseFrom`) -/

theorem attemptParse_link_model {μ α : Type} (ex : Extractor μ α) (page : μ)
    (item : Item α) :
    (attemptParse ex page item).1.link = item.link ∧
    ((attemptParse ex page item).2 = false →
      (attemptParse ex page item).1.model = item.model) := by
  unfold attemptParse
  cases ex.priceOf page with
  | error e => exact ⟨rfl, fun _ => rfl⟩
  | ok v1 =>
    cases ex.shippingOf page with
    | error e => exact ⟨rfl, fun _ => rfl⟩
    | ok v2 =>
      cases ex.deliveryOf page with
      | error e => exact ⟨rfl, fun _ => rfl⟩
      | ok v3 =>
        cases ex.titleOf page with
        | error e => exact ⟨rfl, fun _ => rfl⟩
        | ok v4 =>
          cases ex.paramOf "Condition" page with
          | error e => exact ⟨rfl, fun _ => rfl⟩
          | ok v5 =>
            cases ex.paramOf "MPN" page with
            | error e => exact ⟨rfl, fun _ => rfl⟩
            | ok v6 =>
              cases ex.paramOf "Brand" page with
              | error e => exact ⟨rfl, fun _ => rfl⟩
              | ok v7 =>
                cases ex.paramOf "Model" page with
                | error e => exact ⟨rfl, fun _ => rfl⟩
                | ok v8 => exact ⟨rfl, fun h => Bool.noConfusion h⟩

theorem parseFrom_link {μ α : Type} (fetch : Nat → Option μ)
    (ex : Extractor μ α) :
    ∀ (k attempt : Nat) (item : Item α),
      (parseFrom fetch ex attempt k item).1.link = item.link := by
  intro k
  induction k with
  | zero => intro attempt item; rfl
  | succ k ih =>
    intro attempt item
    rw [parseFrom]
    cases h : fetch attempt with
    | none => simpa using ih (attempt + 1) item
    | some page =>
      by_cases hs : (attemptParse ex page item).2
      · simp only [hs, if_true]
        exact (attemptParse_link_model ex page item).1
      · simp only [hs, if_false, Bool.false_eq_true]
        rw [ih (attempt + 1) (attemptParse ex page item).1]
        exact (attemptParse_link_model ex page item).1

theorem parseFrom_count_le {μ α : Type} (fetch : Nat → Option μ)
    (ex : Extractor μ α) :
    ∀ (k attempt : Nat) (item : Item α),
      (parseFrom fetch ex attempt k item).2 ≤ k := by
  intro k
  induction k with
  | zero => intro attempt item; exact Nat.le_refl 0
  | succ k ih =>
    intro attempt item
    rw [parseFrom]
    cases h : fetch attempt with
    | none =>
      have := ih (attempt + 1) item
      simpa using Nat.succ_le_succ this
    | some page =>
      by_cases hs : (attemptParse ex page item).2
      · simp [hs]
      · have := ih (attempt + 1) (attemptParse ex page item).1
        simp only [hs, if_false, Bool.false_eq_true]
        exact Nat.succ_le_succ this

theorem parseFrom_allNone {μ α : Type} (fetch : Nat → Option μ)
    (ex : Extractor μ α) (hf : ∀ a, fetch a = none) :
    ∀ (k attempt : Nat) (item : Item α),
      parseFrom fetch ex attempt k item = (item, k) := by
  intro k
  induction k with
  | zero => intro attempt item; rfl
  | succ k ih =>
    intro attempt item
    rw [parseFrom, hf attempt, ih (attempt + 1) item]

/-! ## C2 — resolution is total and identity-preserving -/

/-- C2 (amended): for every identity, `parse_item` returns a record (it is
total by construction) whose `link` equals the input identity; and when the
fetch collaborator returns null on all attempts, the returned record has
its identity set and all other (eight) fields null, after exactly 3 fetch
calls. -/
theorem c2_resolve_total_identity :
    (∀ (μ α : Type) (fetch : Nat → Option μ) (ex : Extractor μ α)
        (link : String),
      (parse_item fetch ex link).1.link = link) ∧
    (∀ (μ α : Type) (fetch : Nat → Option μ) (ex : Extractor μ α)
        (link : String),
      (∀ a, fetch a = none) →
      (parse_item fetch ex link).1.link = link ∧
      (parse_item fetch ex link).1.price = none ∧
      (parse_item fetch ex link).1.shipping = none ∧
      (parse_item fetch ex link).1.delivery = none ∧
      (parse_item fetch ex link).1.title = none ∧
      (parse_item fetch ex link).1.condition = none ∧
      (parse_item fetch ex link).1.mpn = none ∧
      (parse_item fetch ex link).1.brand = none ∧
      (parse_item fetch ex link).1.model = none ∧
      (parse_item fetch ex link).2 = 3) := by
  constructor
  · intro μ α fetch ex link
    exact parseFrom_link fetch ex 3 1 (emptyItem link)
  · intro μ α fetch ex link hf
    rw [parse_item, parseFrom_allNone fetch ex hf 3 1 (emptyItem link)]
    exact ⟨rfl, rfl, rfl, rfl, rfl, rfl, rfl, rfl, rfl, rfl⟩

/-- Witness for C2 at a concrete all-blocked fetch oracle. -/
theorem c2_resolve_total_identity_witness :
    (parse_item (fun _ => (none : Option Unit)) exTriv "some-link").1.link
        = "some-link" ∧
    (parse_item (fun _ => (none : Option Unit)) exTriv "some-link").1.mpn
        = none := by
  have h := c2_resolve_total_identity.2 Unit Nat (fun _ => none) exTriv
    "some-link" (fun _ => rfl)
  exact ⟨h.1, h.2.2.2.2.2.2.1⟩

/-- Counterexample for C2 as stated: the claim counts "all other seven
fields", but the record returned for an all-blocked resolution has eight
non-identity fields (all of them null). -/
theorem c2_counterexample_eight_fields :
    (nonIdentityFields
        (parse_item (fun _ => (none : Option Unit)) exTriv "x").1).length = 8 ∧
    ¬ (nonIdentityFields
        (parse_item (fun _ => (none : Option Unit)) exTriv "x").1).length = 7 := by
  decide

/-! ## C3 — what a failed attempt leaves in the record -/

/-- Counterexample for C3 as stated: with an extractor whose price getter
succeeds and whose shipping getter raises, the attempt fails but the record
after the attempt differs from the record before it (the price written by
the failed attempt is visible). -/
theorem c3_counterexample_partial_write :
    (attemptParse exFail () (emptyItem "x")).2 = false ∧
    (attemptParse exFail () (emptyItem "x")).1 ≠ (emptyItem "x" : Item Nat) := by
  decide

/-- C3 (amended): during one attempt the eight fields are assigned one
getter at a time in the order price, shipping, delivery, title, condition,
mpn, brand, model; if extraction raises at some getter, the fields assigned
before that getter retain the failed attempt's values while the failing
field and all later fields keep their prior state (and only a fully
successful attempt reports success). -/
theorem c3_failed_attempt_field_writes :
    ∀ (μ α : Type) (ex : Extractor μ α) (page : μ) (item : Item α),
      (∀ e, ex.priceOf page = .error e →
        attemptParse ex page item = (item, false)) ∧
      (∀ v1 e, ex.priceOf page = .ok v1 →
        ex.shippingOf page = .error e →
        attemptParse ex page item = ({ item with price := v1 }, false)) ∧
      (∀ v1 v2 e, ex.priceOf page = .ok v1 →
        ex.shippingOf page = .ok v2 →
        ex.deliveryOf page = .error e →
        attemptParse ex page item =
          ({ item with price := v1, shipping := v2 }, false)) ∧
      (∀ v1 v2 v3 e, ex.priceOf page = .ok v1 →
        ex.shippingOf page = .ok v2 →
        ex.deliveryOf page = .ok v3 →
        ex.titleOf page = .error e →
        attemptParse ex page item = ({ item with price := v1, shipping := v2, delivery := v3 }, false)) ∧
      (∀ v1 v2 v3 v4 e, ex.priceOf page = .ok v1 →
        ex.shippingOf page = .ok v2 →
        ex.deliveryOf page = .ok v3 →
        ex.titleOf page = .ok v4 →
        ex.paramOf "Condition" page = .error e →
        attemptParse ex page item = ({ item with price := v1, shipping := v2, delivery := v3, title := v4 }, false)) ∧
      (∀ v1 v2 v3 v4 v5 e, ex.priceOf page = .ok v1 →
        ex.shippingOf page = .ok v2 →
        ex.deliveryOf page = .ok v3 →
        ex.titleOf page = .ok v4 →
        ex.paramOf "Condition" page = .ok v5 →
        ex.paramOf "MPN" page = .error e →
        attemptParse ex page item = ({ item with price := v1, shipping := v2, delivery := v3, title := v4, condition := v5 }, false)) ∧
      (∀ v1 v2 v3 v4 v5 v6 e, ex.priceOf page = .ok v1 →
        ex.shippingOf page = .ok v2 →
        ex.deliveryOf page = .ok v3 →
        ex.titleOf page = .ok v4 →
        ex.paramOf "Condition" page = .ok v5 →
        ex.paramOf "MPN" page = .ok v6 →
        ex.paramOf "Brand" page = .error e →
        attemptParse ex page item = ({ item with price := v1, shipping := v2, delivery := v3, title := v4, condition := v5, mpn := v6 }, false)) ∧
      (∀ v1 v2 v3 v4 v5 v6 v7 e, ex.priceOf page = .ok v1 →
        ex.shippingOf page = .ok v2 →
        ex.deliveryOf page = .ok v3 →
        ex.titleOf page = .ok v4 →
        ex.paramOf "Condition" page = .ok v5 →
        ex.paramOf "MPN" page = .ok v6 →
        ex.paramOf "Brand" page = .ok v7 →
        ex.paramOf "Model" page = .error e →
        attemptParse ex page item = ({ item with price := v1, shipping := v2, delivery := v3, title := v4, condition := v5, mpn := v6, brand := v7 }, false)) ∧
      (∀ v1 v2 v3 v4 v5 v6 v7 v8, ex.priceOf page = .ok v1 →
        ex.shippingOf page = .ok v2 →
        ex.deliveryOf page = .ok v3 →
        ex.titleOf page = .ok v4 →
        ex.paramOf "Condition" page = .ok v5 →
        ex.paramOf "MPN" page = .ok v6 →
        ex.paramOf "Brand" page = .ok v7 →
        ex.paramOf "Model" page = .ok v8 →
        attemptParse ex page item = ({ item with price := v1, shipping := v2, delivery := v3, title := v4, condition := v5, mpn := v6, brand := v7, model := v8 }, true)) := by
  intro μ α ex page item
  refine ⟨?_, ?_, ?_, ?_, ?_, ?_, ?_, ?_, ?_⟩
  · intro e h1
    simp [attemptParse, h1]
  · intro v1 e h1 h2
    simp [attemptParse, h1, h2]
  · intro v1 v2 e h1 h2 h3
    simp [attemptParse, h1, h2, h3]
  · intro v1 v2 v3 e h1 h2 h3 h4
    simp [attemptParse, h1, h2, h3, h4]
  · intro v1 v2 v3 v4 e h1 h2 h3 h4 h5
    simp [attemptParse, h1, h2, h3, h4, h5]
  · intro v1 v2 v3 v4 v5 e h1 h2 h3 h4 h5 h6
    simp [attemptParse, h1, h2, h3, h4, h5, h6]
  · intro v1 v2 v3 v4 v5 v6 e h1 h2 h3 h4 h5 h6 h7
    simp [attemptParse, h1, h2, h3, h4, h5, h6, h7]
  · intro v1 v2 v3 v4 v5 v6 v7 e h1 h2 h3 h4 h5 h6 h7 h8
    simp [attemptParse, h1, h2, h3, h4, h5, h6, h7, h8]
  · intro v1 v2 v3 v4 v5 v6 v7 v8 h1 h2 h3 h4 h5 h6 h7 h8
    simp [attemptParse, h1, h2, h3, h4, h5, h6, h7, h8]

/-- Witness for C3 (amended) on the concrete failing extractor. -/
theorem c3_failed_attempt_field_writes_witness :
    attemptParse exFail () (emptyItem "x") =
      ({ emptyItem "x" with price := some 1 }, false) :=
  (c3_failed_attempt_field_writes Unit Nat exFail () (emptyItem "x")).2.1
    (some 1) "boom" rfl rfl

/-! ## C4 — at most 3 cycles; first full success stops the loop -/

/-- C4: resolution performs at most 3 fetch+parse cycles, and at any point
of the retry loop with attempts remaining, an attempt whose fetch returns a
page and whose parse fully succeeds ends the loop at once: the result is
exactly that attempt's record and exactly one more fetch happens (so the
record is never overwritten by a later attempt). -/
theorem c4_retry_bound_first_success_stops :
    (∀ (μ α : Type) (fetch : Nat → Option μ) (ex : Extractor μ α)
        (link : String),
      (parse_item fetch ex link).2 ≤ 3) ∧
    (∀ (μ α : Type) (fetch : Nat → Option μ) (ex : Extractor μ α)
        (attempt k : Nat) (item : Item α) (page : μ),
      fetch attempt = some page →
      (attemptParse ex page item).2 = true →
      parseFrom fetch ex attempt (k + 1) item =
        ((attemptParse ex page item).1, 1)) := by
  constructor
  · intro μ α fetch ex link
    exact parseFrom_count_le fetch ex 3 1 (emptyItem link)
  · intro μ α fetch ex attempt k item page hf hs
    rw [parseFrom, hf]
    simp [hs]

/-- Witness for C4: with a fetch that always returns a page and an extractor
that always succeeds, the first attempt's record is returned after exactly
one fetch. -/
theorem c4_retry_bound_first_success_stops_witness :
    parse_item (fun _ => some ()) exTriv "x" =
      ((attemptParse exTriv () (emptyItem "x")).1, 1) :=
  c4_retry_bound_first_success_stops.2 Unit Nat (fun _ => some ()) exTriv
    1 2 (emptyItem "x") () rfl (by decide)

/-! ## Aggregate-map lemmas (`dictInsert`, `processFrom`) -/

theorem dictKeys_nil {β : Type} : dictKeys ([] : List (String × β)) = [] := rfl

theorem dictKeys_cons {β : Type} (e : String × β) (rest : List (String × β)) :
    dictKeys (e :: rest) = e.1 :: dictKeys rest := rfl

theorem dictGet_nil {β : Type} (k : String) :
    dictGet ([] : List (String × β)) k = none := rfl

theorem dictGet_cons {β : Type} (e : String × β) (rest : List (String × β))
    (k : String) :
    dictGet (e :: rest) k = if e.1 = k then some e.2 else dictGet rest k := by
  by_cases h : e.1 = k
  · rw [dictGet, List.find?_cons_of_pos _ (by simp [h]), if_pos h]
    rfl
  · rw [dictGet, List.find?_cons_of_neg _ (by simp [h]), if_neg h]
    rfl

theorem mem_dictKeys_dictInsert {β : Type} (m : List (String × β))
    (k l : String) (v : β) :
    l ∈ dictKeys (dictInsert m k v) ↔ l ∈ dictKeys m ∨ l = k := by
  induction m with
  | nil => simp [dictInsert, dictKeys_cons, dictKeys_nil]
  | cons e rest ih =>
    obtain ⟨k0, v0⟩ := e
    by_cases hk : k0 = k
    · subst hk
      rw [show dictInsert ((k0, v0) :: rest) k0 v = (k0, v) :: rest by
        simp [dictInsert]]
      rw [dictKeys_cons, dictKeys_cons]
      simp only [List.mem_cons]
      tauto
    · rw [show dictInsert ((k0, v0) :: rest) k v = (k0, v0) :: dictInsert rest k v by
        simp [dictInsert, hk]]
      rw [dictKeys_cons, dictKeys_cons]
      simp only [List.mem_cons]
      rw [ih]
      tauto

theorem dictKeys_nodup_dictInsert {β : Type} (m : List (String × β))
    (k : String) (v : β) (h : (dictKeys m).Nodup) :
    (dictKeys (dictInsert m k v)).Nodup := by
  induction m with
  | nil => simp [dictInsert, dictKeys_cons, dictKeys_nil]
  | cons e rest ih =>
    obtain ⟨k0, v0⟩ := e
    rw [dictKeys_cons, List.nodup_cons] at h
    by_cases hk : k0 = k
    · subst hk
      rw [show dictInsert ((k0, v0) :: rest) k0 v = (k0, v) :: rest by
        simp [dictInsert]]
      rw [dictKeys_cons, List.nodup_cons]
      exact h
    · rw [show dictInsert ((k0, v0) :: rest) k v = (k0, v0) :: dictInsert rest k v by
        simp [dictInsert, hk]]
      rw [dictKeys_cons, List.nodup_cons]
      refine ⟨?_, ih h.2⟩
      intro hmem
      rcases (mem_dictKeys_dictInsert rest k k0 v).mp hmem with hm | hm
      · exact h.1 hm
      · exact hk hm

theorem dictGet_dictInsert_self {β : Type} (m : List (String × β))
    (k : String) (v : β) :
    dictGet (dictInsert m k v) k = some v := by
  induction m with
  | nil => simp [dictInsert, dictGet_cons]
  | cons e rest ih =>
    obtain ⟨k0, v0⟩ := e
    by_cases hk : k0 = k
    · subst hk
      rw [show dictInsert ((k0, v0) :: rest) k0 v = (k0, v) :: rest by
        simp [dictInsert]]
      rw [dictGet_cons, if_pos rfl]
    · rw [show dictInsert ((k0, v0) :: rest) k v = (k0, v0) :: dictInsert rest k v by
        simp [dictInsert, hk]]
      rw [dictGet_cons, if_neg hk, ih]

theorem dictGet_dictInsert_other {β : Type} (m : List (String × β))
    (k l : String) (v : β) (h : l ≠ k) :
    dictGet (dictInsert m k v) l = dictGet m l := by
  induction m with
  | nil =>
    rw [show dictInsert ([] : List (String × β)) k v = [(k, v)] from rfl]
    rw [dictGet_cons, if_neg (Ne.symm h)]
  | cons e rest ih =>
    obtain ⟨k0, v0⟩ := e
    by_cases hk : k0 = k
    · subst hk
      rw [show dictInsert ((k0, v0) :: rest) k0 v = (k0, v) :: rest by
        simp [dictInsert]]
      rw [dictGet_cons, dictGet_cons, if_neg (Ne.symm h), if_neg (Ne.symm h)]
    · rw [show dictInsert ((k0, v0) :: rest) k v = (k0, v0) :: dictInsert rest k v by
        simp [dictInsert, hk]]
      rw [dictGet_cons, dictGet_cons, ih]

theorem processFrom_keys_mem {μ α : Type} (fetch : Nat → String → Nat → Option μ)
    (ex : Extractor μ α) :
    ∀ (ls : List String) (i : Nat) (m : List (String × Item α)) (n : Nat)
      (l : String),
      l ∈ dictKeys (processFrom fetch ex i ls m n).1 ↔
        l ∈ dictKeys m ∨ l ∈ ls := by
  intro ls
  induction ls with
  | nil =>
    intro i m n l
    simp [processFrom]
  | cons x xs ih =>
    intro i m n l
    rw [processFrom]
    rw [ih]
    rw [mem_dictKeys_dictInsert]
    simp [List.mem_cons]
    tauto

theorem processFrom_keys_nodup {μ α : Type}
    (fetch : Nat → String → Nat → Option μ) (ex : Extractor μ α) :
    ∀ (ls : List String) (i : Nat) (m : List (String × Item α)) (n : Nat),
      (dictKeys m).Nodup → (dictKeys (processFrom fetch ex i ls m n).1).Nodup := by
  intro ls
  induction ls with
  | nil =>
    intro i m n h
    simpa [processFrom] using h
  | cons x xs ih =>
    intro i m n h
    rw [processFrom]
    exact ih _ _ _ (dictKeys_nodup_dictInsert m x _ h)

theorem processFrom_append {μ α : Type} (fetch : Nat → String → Nat → Option μ)
    (ex : Extractor μ α) :
    ∀ (as bs : List String) (i : Nat) (m : List (String × Item α)) (n : Nat),
      processFrom fetch ex i (as ++ bs) m n =
        processFrom fetch ex (i + as.length) bs
          (processFrom fetch ex i as m n).1
          (processFrom fetch ex i as m n).2 := by
  intro as
  induction as with
  | nil =>
    intro bs i m n
    simp [processFrom]
  | cons x xs ih =>
    intro bs i m n
    rw [List.cons_append, processFrom, processFrom, ih]
    simp [Nat.add_comm, Nat.add_assoc, Nat.add_left_comm]

theorem processFrom_get_not_mem {μ α : Type}
    (fetch : Nat → String → Nat → Option μ) (ex : Extractor μ α) :
    ∀ (ls : List String) (i : Nat) (m : List (String × Item α)) (n : Nat)
      (l : String), l ∉ ls →
      dictGet (processFrom fetch ex i ls m n).1 l = dictGet m l := by
  intro ls
  induction ls with
  | nil =>
    intro i m n l _
    rfl
  | cons x xs ih =>
    intro i m n l hl
    rw [processFrom]
    have hx : l ≠ x := fun h => hl (h ▸ List.mem_cons_self x xs)
    have hxs : l ∉ xs := fun h => hl (List.mem_cons_of_mem x h)
    rw [ih _ _ _ _ hxs, dictGet_dictInsert_other _ _ _ _ hx]

/-! ## C6 — one aggregate entry per identity; duplicates collapse to last -/

/-- C6: the aggregate map built by `main`'s loop has duplicate-free keys,
its keys are exactly the input identities, and for an identity whose last
occurrence is at position `links1.length` (`links = links1 ++ l :: links2`
with `l ∉ links2`) the entry equals the record of that last resolution. -/
theorem c6_aggregate_last_resolution_wins :
    ∀ (μ α : Type) (fetch : Nat → String → Nat → Option μ)
      (ex : Extractor μ α) (links : List String),
      (dictKeys (processLinks fetch ex links).1).Nodup ∧
      (∀ l, l ∈ dictKeys (processLinks fetch ex links).1 ↔ l ∈ links) ∧
      (∀ (links1 links2 : List String) (l : String),
        links = links1 ++ l :: links2 → l ∉ links2 →
        dictGet (processLinks fetch ex links).1 l =
          some (parse_item (fetch links1.length l) ex l).1) := by
  intro μ α fetch ex links
  refine ⟨?_, ?_, ?_⟩
  · exact processFrom_keys_nodup fetch ex links 0 [] 0 (by simp [dictKeys])
  · intro l
    rw [processLinks, processFrom_keys_mem]
    simp [dictKeys]
  · intro links1 links2 l hsplit hnot
    subst hsplit
    rw [processLinks, processFrom_append, processFrom]
    rw [processFrom_get_not_mem fetch ex links2 _ _ _ l hnot,
      dictGet_dictInsert_self]
    simp

/-- Witness for C6 on a concrete duplicated sequence: in
`["a", "b", "a"]` the entry for `"a"` is the record of its last resolution
(position 2). -/
theorem c6_aggregate_last_resolution_wins_witness :
    dictGet (processLinks (fun _ _ _ => (none : Option Unit)) exTriv
        ["a", "b", "a"]).1 "a" =
      some (parse_item ((fun (_ : Nat) (_ : String) (_ : Nat) =>
        (none : Option Unit)) 2 "a") exTriv "a").1 :=
  (c6_aggregate_last_resolution_wins Unit Nat (fun _ _ _ => none) exTriv
    ["a", "b", "a"]).2.2 ["a", "b"] [] "a" rfl (by simp)

/-! ## Sheet-schema lemmas -/

theorem listIndex_eq_none {hs : List String} {name : String} :
    listIndex hs name = none ↔ name ∉ hs := by
  induction hs with
  | nil => simp [listIndex]
  | cons h hs ih =>
    by_cases hh : h = name
    · simp [listIndex, hh]
    · simp only [listIndex, if_neg hh, Option.map_eq_none', List.mem_cons]
      rw [ih]
      constructor
      · intro hn hmem
        rcases hmem with hmem | hmem
        · exact hh hmem.symm
        · exact hn hmem
      · intro hn
        exact fun hmem => hn (Or.inr hmem)

theorem colLookup_error {headers : List String} {name : String}
    (h : name ∉ headers) :
    colLookup headers name =
      .error ("Column \x27" ++ name ++ "\x27 not found in the sheet") := by
  rw [colLookup, listIndex_eq_none.mpr h]

theorem colLookup_ok {headers : List String} {name : String}
    (h : name ∈ headers) : ∃ i, colLookup headers name = .ok i := by
  cases hidx : listIndex headers name with
  | none => exact absurd h (listIndex_eq_none.mp hidx)
  | some i => exact ⟨i + 1, by rw [colLookup, hidx]⟩

theorem exceptBindOk {β γ : Type} (b : β) (f : β → Except String γ) :
    ((Except.ok b : Except String β) >>= f) = f b := rfl

theorem exceptBindError {β γ : Type} (e : String) (f : β → Except String γ) :
    ((Except.error e : Except String β) >>= f) = .error e := rfl

theorem resolveCols_error_of_missing (headers : List String) :
    ∀ (cs : List String) (c : String), c ∈ cs → c ∉ headers →
      ∃ e, resolveCols headers cs = .error e := by
  intro cs
  induction cs with
  | nil => intro c hc; cases hc
  | cons n ns ih =>
    intro c hc hm
    by_cases hn : n ∈ headers
    · have hcns : c ∈ ns := by
        rcases List.mem_cons.mp hc with h | h
        · exact absurd (h ▸ hn) hm
        · exact h
      obtain ⟨i, hi⟩ := colLookup_ok hn
      obtain ⟨e, he⟩ := ih c hcns hm
      exact ⟨e, by simp [resolveCols, hi, he, exceptBindOk, exceptBindError]⟩
    · exact ⟨"Column \x27" ++ n ++ "\x27 not found in the sheet",
        by simp [resolveCols, colLookup_error hn, exceptBindError]⟩

theorem get_links_ok {header : List String} {rows : List (List String)}
    {i : Nat} (hidx : listIndex header "link" = some i) :
    get_links (header :: rows) = .ok (linksFromRows i rows) := by
  rw [get_links, hidx]

theorem update_sheet_error {α : Type} (header : List String)
    (rows : List (List String)) (items : List (String × Item α)) {e : String}
    (h : resolveCols header requiredCols = .error e) :
    update_sheet (header :: rows) items = .error e := by
  simp [update_sheet, h, exceptBindError]

/-! ## C1 — when the schema check fires relative to fetching -/

/-- Counterexample for C1 as stated: on a sheet whose header lacks `"mpn"`
and which contains one link, the run does raise the `RuntimeError` naming
`"mpn"`, but only after 3 page fetches have occurred — not before the first
fetch as the claim requires. -/
theorem c1_counterexample_fetch_before_error :
    runMain (fun _ _ _ => (none : Option Unit)) exTriv sheetMissingMpn =
      (.error "Column \x27mpn\x27 not found in the sheet", 3) ∧
    (runMain (fun _ _ _ => (none : Option Unit)) exTriv sheetMissingMpn).2 ≠ 0 :=
  ⟨rfl, by decide⟩

/-- C1 (amended): a header row without the identity column `"link"` aborts
the run with the `RuntimeError` naming it before any fetch (fetch count 0);
a header row containing `"link"` but missing one of the other required
columns also aborts the run with a `RuntimeError`, but only at write-back
time, after the full fetch/parse phase has run (the fetch count equals the
whole processing phase's fetch count). -/
theorem c1_schema_error_timing :
    ∀ (μ α : Type) (fetch : Nat → String → Nat → Option μ)
      (ex : Extractor μ α) (header : List String) (rows : List (List String)),
      ("link" ∉ header →
        runMain fetch ex (header :: rows) =
          (.error "Column \x27link\x27 not found in the first row of the sheet",
            0)) ∧
      (∀ i c, listIndex header "link" = some i →
        c ∈ requiredCols → c ∉ header →
        exceptIsOk (runMain fetch ex (header :: rows)).1 = false ∧
        (runMain fetch ex (header :: rows)).2 =
          (processLinks fetch ex (linksFromRows i rows)).2) := by
  intro μ α fetch ex header rows
  constructor
  · intro h
    rw [runMain, get_links, listIndex_eq_none.mpr h]
  · intro i c hidx hreq hmiss
    obtain ⟨e, he⟩ := resolveCols_error_of_missing header requiredCols c hreq hmiss
    have hu := update_sheet_error header rows
      (processLinks fetch ex (linksFromRows i rows)).1 he
    simp [runMain, get_links_ok hidx, hu, exceptIsOk]

/-- Witness for C1 (amended), part two, on the concrete mpn-less sheet. -/
theorem c1_schema_error_timing_witness :
    exceptIsOk (runMain (fun _ _ _ => (none : Option Unit)) exTriv
        (["link", "price", "shipping price", "delivery time", "title",
          "condition", "brand", "model"] ::
          [["https://ebay.example/itm/1", "", "", "", "", "", "", ""]])).1
      = false :=
  ((c1_schema_error_timing Unit Nat (fun _ _ _ => none) exTriv
      ["link", "price", "shipping price", "delivery time", "title",
       "condition", "brand", "model"]
      [["https://ebay.example/itm/1", "", "", "", "", "", "", ""]]).2
    0 "mpn" (by decide) (by decide) (by decide)).1

/-! ## C7 — delivery window extraction -/

/-- C7: delivery-window extraction only accepts a values block whose
rendered text contains a weekday abbreviation; given such a block with two
bold spans the result is their texts joined by the literal " to "; with
fewer than two bold spans it falls back to the first plain span's text
(null when no span); with no qualifying block the result is null. -/
theorem c7_delivery_window :
    (∀ (p : Page) (block : Element), deliveryBlock p = some block →
      ∃ d ∈ weekdayAbbrevs, containsSub d block.text = true) ∧
    (∀ p : Page, deliveryBlock p = none → get_delivery_time p = none) ∧
    (∀ (p : Page) (block : Element) (s1 s2 : Span) (rest : List Span),
      deliveryBlock p = some block →
      boldSpans block = s1 :: s2 :: rest →
      get_delivery_time p = some (s1.text ++ txt " to " ++ s2.text)) ∧
    (∀ (p : Page) (block : Element), deliveryBlock p = some block →
      (boldSpans block).length < 2 →
      get_delivery_time p = (firstPlainSpan block).map (fun s => s.text)) := by
  refine ⟨?_, ?_, ?_, ?_⟩
  · intro p block h
    rw [deliveryBlock, getElement] at h
    cases hfa : findAllByClass p "div" ["ux-labels-values__values-content"] with
    | nil =>
      rw [hfa] at h
      exact absurd h (by simp)
    | cons e es =>
      rw [hfa] at h
      simp only [weekdayAbbrevs] at h
      have hp := List.find?_some h
      simp only [List.any_eq_true, Bool.decide_eq_true] at hp
      simpa [weekdayAbbrevs] using hp
  · intro p h
    rw [get_delivery_time, h]
  · intro p block s1 s2 rest h1 h2
    simp [get_delivery_time, h1, h2]
  · intro p block h1 hlen
    cases hb : boldSpans block with
    | nil =>
      simp only [get_delivery_time, h1, hb]
      cases hps : firstPlainSpan block <;> simp [hps]
    | cons s srest =>
      cases srest with
      | nil =>
        simp only [get_delivery_time, h1, hb]
        cases hps : firstPlainSpan block <;> simp [hps]
      | cons s2 srest2 =>
        rw [hb] at hlen
        simp at hlen
        omega

/-- Witness for C7 on the worked example: bold spans "Mon, Jun 2" and
"Fri, Jun 6" in a weekday-containing block yield exactly
"Mon, Jun 2 to Fri, Jun 6". -/
theorem c7_delivery_window_witness :
    get_delivery_time deliveryPage = some (txt "Mon, Jun 2 to Fri, Jun 6") := by
  have h := c7_delivery_window.2.2.1 deliveryPage deliveryBlockEx
    { classAttr := ["ux-textspans", "ux-textspans--BOLD"],
      text := txt "Mon, Jun 2" }
    { classAttr := ["ux-textspans", "ux-textspans--BOLD"],
      text := txt "Fri, Jun 6" } [] (by decide) (by decide)
  rw [h]
  decide

/-! ## C9 — labelled attribute extraction -/

/-- C9: attribute extraction for a label locates a definition-list block
whose rendered text contains the label, and returns the text of that
block's second span; with fewer than two spans, or no qualifying block, the
result is null. -/
theorem c9_param_extraction :
    (∀ (p : Page) (name : List Char) (block : Element),
      paramBlock p name = some block → containsSub name block.text = true) ∧
    (∀ (p : Page) (name : List Char),
      paramBlock p name = none → get_param p name = none) ∧
    (∀ (p : Page) (name : List Char) (block : Element) (s1 s2 : Span)
        (rest : List Span),
      paramBlock p name = some block →
      block.spans = s1 :: s2 :: rest →
      get_param p name = some s2.text) ∧
    (∀ (p : Page) (name : List Char) (block : Element),
      paramBlock p name = some block →
      block.spans.length < 2 →
      get_param p name = none) := by
  refine ⟨?_, ?_, ?_, ?_⟩
  · intro p name block h
    rw [paramBlock, getElement] at h
    cases hfa : findAllByClass p "dl"
        ["ux-labels-values", "ux-labels-values--inline", "col-6", "false"] with
    | nil =>
      rw [hfa] at h
      exact absurd h (by simp)
    | cons e es =>
      rw [hfa] at h
      have hp := List.find?_some h
      simpa using hp
  · intro p name h
    rw [get_param, h]
  · intro p name block s1 s2 rest h1 h2
    simp [get_param, h1, h2]
  · intro p name block h1 hlen
    cases hb : block.spans with
    | nil => simp [get_param, h1, hb]
    | cons s srest =>
      cases srest with
      | nil => simp [get_param, h1, hb]
      | cons s2 srest2 =>
        rw [hb] at hlen
        simp at hlen
        omega

/-- Witness for C9: the label "MPN" block yields the second span's text. -/
theorem c9_param_extraction_witness :
    get_param paramPage (txt "MPN") = some (txt "12345X") :=
  c9_param_extraction.2.2.1 paramPage (txt "MPN") paramBlockEx
    { classAttr := ["ux-textspans"], text := txt "MPN:" }
    { classAttr := ["ux-textspans"], text := txt "12345X" } []
    (by decide) (by decide)

/-! ## Text lemmas for the title claim -/

theorem isPrefixOfCL_iff_take :
    ∀ (n h : List Char), isPrefixOfCL n h = true ↔ h.take n.length = n := by
  intro n
  induction n with
  | nil =>
    intro h
    simp [isPrefixOfCL]
  | cons a as ih =>
    intro h
    cases h with
    | nil => simp [isPrefixOfCL]
    | cons b bs =>
      rw [show isPrefixOfCL (a :: as) (b :: bs) =
        (decide (a = b) && isPrefixOfCL as bs) from rfl]
      simp only [Bool.and_eq_true, decide_eq_true_eq, List.length_cons,
        List.take_succ_cons, List.cons.injEq]
      rw [ih bs]
      constructor
      · rintro ⟨hab, ht⟩
        exact ⟨hab.symm, ht⟩
      · rintro ⟨hba, ht⟩
        exact ⟨hba.symm, ht⟩

theorem isPrefixImpliesContains :
    ∀ {n h : List Char}, isPrefixOfCL n h = true → containsSub n h = true := by
  intro n h hp
  cases h with
  | nil => simpa [containsSub] using hp
  | cons c rest => simp [containsSub, hp]

theorem replaceGo_of_not_contains (n0 : Char) (ns r : List Char) :
    ∀ h, containsSub (n0 :: ns) h = false → replaceGo (n0 :: ns) r h 0 = h := by
  intro h
  induction h with
  | nil => intro _; rfl
  | cons c rest ih =>
    intro hc
    rw [containsSub] at hc
    simp only [Bool.or_eq_false_iff] at hc
    simp only [replaceGo]
    rw [if_neg (by simp [hc.1]), ih hc.2]

theorem replaceAll_of_not_contains (n r : List Char) :
    ∀ h, containsSub n h = false → replaceAll n r h = h := by
  cases n with
  | nil => intro h hc; rfl
  | cons n0 ns => intro h hc; exact replaceGo_of_not_contains n0 ns r h hc

/-- The site suffix " | eBay" has no border, so it cannot occur straddling
the boundary of `base ++ " | eBay"` when `base` is non-empty and free of
it. -/
theorem sfx_no_straddle (b : Char) (bs : List Char)
    (hc : containsSub (txt " | eBay") (b :: bs) = false) :
    isPrefixOfCL (txt " | eBay") ((b :: bs) ++ txt " | eBay") = false := by
  cases hx : isPrefixOfCL (txt " | eBay") ((b :: bs) ++ txt " | eBay") with
  | false => rfl
  | true =>
    exfalso
    have hTake := (isPrefixOfCL_iff_take _ _).mp hx
    rcases Nat.lt_or_ge (b :: bs).length 7 with hlen | hlen
    · have hbase : List.take (b :: bs).length (txt " | eBay") = b :: bs := by
        have h1 := congrArg (List.take (b :: bs).length) hTake
        rw [List.take_take] at h1
        rw [show (txt " | eBay").length = 7 from rfl] at h1
        rw [Nat.min_eq_left (Nat.le_of_lt hlen)] at h1
        rw [List.take_left (b :: bs) (txt " | eBay")] at h1
        exact h1.symm
      obtain ⟨k, hk1, hk7, hbk⟩ :
          ∃ k, 1 ≤ k ∧ k < 7 ∧ List.take k (txt " | eBay") = b :: bs :=
        ⟨(b :: bs).length, by simp, hlen, hbase⟩
      rw [← hbk] at hx
      interval_cases k <;> exact absurd hx (by decide)
    · rw [show (txt " | eBay").length = 7 from rfl] at hTake
      rw [List.take_append_of_le_length hlen] at hTake
      have hpre2 : isPrefixOfCL (txt " | eBay") (b :: bs) = true := by
        rw [isPrefixOfCL_iff_take]
        rw [show (txt " | eBay").length = 7 from rfl]
        exact hTake
      exact absurd (isPrefixImpliesContains hpre2) (by simp [hc])

theorem replaceGo_strip_suffix :
    ∀ base, containsSub (txt " | eBay") base = false →
      replaceGo (txt " | eBay") [] (base ++ txt " | eBay") 0 = base := by
  intro base
  induction base with
  | nil => intro _; decide
  | cons b bs ih =>
    intro hc
    have hc' : containsSub (txt " | eBay") bs = false := by
      rw [containsSub] at hc
      simp only [Bool.or_eq_false_iff] at hc
      exact hc.2
    have hnp := sfx_no_straddle b bs hc
    rw [List.cons_append] at hnp ⊢
    simp only [replaceGo]
    rw [if_neg (by simp [hnp]), ih hc']

theorem replaceAll_strip_suffix (base : List Char)
    (hc : containsSub (txt " | eBay") base = false) :
    replaceAll (txt " | eBay") [] (base ++ txt " | eBay") = base :=
  replaceGo_strip_suffix base hc

/-! ## C8 — title extraction -/

/-- Counterexample for C8 as stated: the title "Great | eBay Deal" does not
end with the site suffix, so by the claim it should come back (decoded but)
unchanged; the code removes the internal occurrence and returns
"Great Deal". -/
theorem c8_counterexample_midfix_removed :
    isSuffixOfCL (txt " | eBay") (txt "Great | eBay Deal") = false ∧
    get_title (fun t => t) midSuffixPage = some (txt "Great Deal") ∧
    txt "Great Deal" ≠ txt "Great | eBay Deal" := by
  refine ⟨by decide, by decide, by decide⟩

/-- C8 (amended): title extraction entity-decodes the title text and then
removes every occurrence of " | eBay" from it (not only a trailing one): a
decoded title of the form base ++ " | eBay" with no other occurrence yields
base; a decoded title containing no occurrence at all is returned
unchanged; a document with no title element yields null. -/
theorem c8_title_strip_all_occurrences :
    ∀ (u : List Char → List Char) (p : Page) (t base : List Char),
      (p.title = none → get_title u p = none) ∧
      (p.title = some t →
        get_title u p = some (replaceAll (txt " | eBay") [] (u t))) ∧
      (p.title = some t → containsSub (txt " | eBay") (u t) = false →
        get_title u p = some (u t)) ∧
      (p.title = some t → u t = base ++ txt " | eBay" →
        containsSub (txt " | eBay") base = false →
        get_title u p = some base) := by
  intro u p t base
  refine ⟨?_, ?_, ?_, ?_⟩
  · intro h
    simp only [get_title, h]
  · intro h
    simp only [get_title, h]
  · intro h hc
    simp only [get_title, h]
    rw [replaceAll_of_not_contains _ _ _ hc]
  · intro h hu hc
    simp only [get_title, h, hu]
    rw [replaceAll_strip_suffix base hc]

/-- Witness for C8 (amended): a title ending in " | eBay" and otherwise
free of it loses exactly the suffix. -/
theorem c8_title_strip_all_occurrences_witness :
    get_title (fun t => t) titledPage = some (txt "Cordless Drill 18V") :=
  (c8_title_strip_all_occurrences (fun t => t) titledPage
      (txt "Cordless Drill 18V | eBay") (txt "Cordless Drill 18V")).2.2.2
    (by decide) (by decide) (by decide)

end EbayParser
